import Mathlib

/-!
Shallow embedding of serializer/ResidualHeapInspector.js.

Modelling conventions:
* Every runtime value is represented by a flat `Value` record carrying a
  numeric identity `vid`; the JS reference comparison (triple equals) between
  value instances is modelled as equality of `vid` fields.
* The class tag `cls` replaces the instanceof checks against the value class
  hierarchy (SymbolValue, AbstractValue, PrimitiveValue, UndefinedValue,
  NumberValue, ObjectValue, FunctionValue, ECMAScriptSourceFunctionValue).
* `prim` holds the payload read by the `.value` field access on wrapper
  values (NumberValue, StringValue, BooleanValue); for every other class the
  access yields the JS undefined, modelled as `JSPrim.undef`.
* `origCtorVid` is the identity of the `originalConstructor` back reference
  of an object-class value (`none` when absent), used where the source reads
  `desc.value.originalConstructor`.
* An `ObjectValue` is the full record of the object under inspection; its
  `properties` list models the insertion-ordered Map from property name to
  PropertyBinding, where a binding with descriptor `none` is a deleted
  property.  `IsArray(realm, val)` is an external helper, modelled as the
  snapshot flag `isArrayObj`; `realm.isCompatibleWith(realm.MOBILE_JSC_VERSION)`
  is modelled as the realm flag `compatJSC`.
* `logger.logError` calls are collected in a result list of `Log` entries;
  a failed `invariant` is modelled as the `Except.error` case.
-/

namespace ResidualHeap

/-- The JS primitive payload seen by a `.value` field access. -/
inductive JSPrim where
  | undef : JSPrim
  | num : Int → JSPrim
  | str : String → JSPrim
  | boolean : Bool → JSPrim
  deriving DecidableEq

/-- Class tag of a value, standing in for the instanceof tests of the source. -/
inductive ValueClass where
  | symbolC : ValueClass
  | abstractC : ValueClass
  | undefinedC : ValueClass
  | nullC : ValueClass
  | emptyC : ValueClass
  | booleanC : ValueClass
  | numberC : ValueClass
  | stringC : ValueClass
  | objectC : ValueClass
  | functionC : ValueClass
  | sourceFunctionC : ValueClass
  deriving DecidableEq

/-- A runtime value as referenced from a descriptor slot or a prototype link. -/
structure Value where
  vid : Nat
  cls : ValueClass
  intrinsic : Bool
  hasIdentifier : Bool
  prim : JSPrim
  origCtorVid : Option Nat
  deriving DecidableEq

/-- A property descriptor; `value = none` models an accessor descriptor. -/
structure Descriptor where
  value : Option Value
  writable : Bool
  enumerable : Bool
  configurable : Bool
  deriving DecidableEq

/-- Concrete subtype of the inspected object: plain object, FunctionValue,
or ECMAScriptSourceFunctionValue. -/
inductive ObjClass where
  | plainObj : ObjClass
  | funcObj : ObjClass
  | sourceFuncObj : ObjClass
  deriving DecidableEq

/-- The inspected object: ordered own property bindings (descriptor `none`
means the property was deleted), symbol-keyed binding count, prototype link
identity, extensibility, the originalConstructor back reference, the kind
tag, and the FunctionValue fields read by the source. -/
structure ObjectValue where
  vid : Nat
  cls : ObjClass
  isArrayObj : Bool
  properties : List (String × Option Descriptor)
  symbolsSize : Nat
  protoVid : Nat
  extensible : Bool
  originalConstructor : Option Value
  kind : String
  hasDefaultLength : Bool
  originalName : Option String
  strict : Bool
  functionKind : String
  deriving DecidableEq

/-- The slice of the realm read by the inspector: the identity of
intrinsics.ObjectPrototype and the MOBILE_JSC compatibility predicate. -/
structure Realm where
  objectPrototypeVid : Nat
  compatJSC : Bool
  deriving DecidableEq

/-- A logger.logError call: identity of the offending value and the message. -/
abbrev Log := Nat × String

/-- JS triple-equals on two optional value references (undefined on either
side only equals undefined; value instances compare by identity). -/
def jsEqOpt : Option Value → Option Value → Bool
  | none, none => true
  | some a, some b => a.vid == b.vid
  | _, _ => false

/-- val instanceof FunctionValue. -/
def isFunctionClass : ObjClass → Bool
  | ObjClass.funcObj => true
  | ObjClass.sourceFuncObj => true
  | ObjClass.plainObj => false

/-- v instanceof ObjectValue, for a value held in a descriptor slot. -/
def isObjClass : ValueClass → Bool
  | ValueClass.objectC => true
  | ValueClass.functionC => true
  | ValueClass.sourceFunctionC => true
  | _ => false

/-- v instanceof PrimitiveValue. -/
def isPrimitiveClass : ValueClass → Bool
  | ValueClass.symbolC => true
  | ValueClass.undefinedC => true
  | ValueClass.nullC => true
  | ValueClass.emptyC => true
  | ValueClass.booleanC => true
  | ValueClass.numberC => true
  | ValueClass.stringC => true
  | _ => false

/-- static isLeaf(val): symbols are never leaves; an abstract value with an
identifier is a leaf; an intrinsic value is not a leaf; otherwise leafness
is membership in PrimitiveValue. -/
def isLeaf (v : Value) : Bool :=
  if v.cls == ValueClass.symbolC then false
  else if v.cls == ValueClass.abstractC && v.hasIdentifier then true
  else if v.intrinsic then false
  else isPrimitiveClass v.cls

/-- val.properties.get(name): the binding stored under a name, if any. -/
def lookupBinding (val : ObjectValue) (name : String) : Option (Option Descriptor) :=
  match val.properties.find? (fun e => e.1 == name) with
  | none => none
  | some e => some e.2

/-- static getPropertyValue(val, name): descriptor value of an own property
when the binding exists and its descriptor is present, undefined otherwise. -/
def getPropertyValue (val : ObjectValue) (name : String) : Option Value :=
  match lookupBinding val name with
  | none => none
  | some none => none
  | some (some desc) => desc.value

/-- desc.value instanceof UndefinedValue, for an optional descriptor slot. -/
def isUndefinedInstance : Option Value → Bool
  | some dv => dv.cls == ValueClass.undefinedC
  | none => false

/-- The fixed diagnostic message of the accessor-length branch. -/
def lengthAccessorMsg : String :=
  "Functions with length accessor properties are not supported in residual heap."

/-- The message of the failed invariant in the caller and arguments branch. -/
def sourceFunctionInvariantMsg : String :=
  "invariant failure: expected an ECMAScriptSourceFunctionValue"

/-- The truthiness test and mismatch test of the name rule:
val.__originalName is truthy, nonempty, and differs (JS strict inequality)
from the payload read off the descriptor value. -/
def nameMismatch (val : ObjectValue) (dv : Value) : Bool :=
  match val.originalName with
  | none => false
  | some s => s != "" && dv.prim != JSPrim.str s

/-- The fallthrough check at the bottom of _canIgnoreProperty: the
constructor property with the canonical shape whose value is identical to
val.originalConstructor. -/
def constructorFallback (val : ObjectValue) (key : String) (desc : Descriptor) : Bool :=
  key == "constructor" && desc.configurable && !desc.enumerable && desc.writable
    && jsEqOpt desc.value val.originalConstructor

/-- The per-property decision _canIgnoreProperty(val, key, desc); the
result carries the verdict and the list of logger.logError calls, and the
error case is a failed invariant. -/
def canIgnorePropertyRaw (realm : Realm) (val : ObjectValue) (key : String)
    (desc : Descriptor) : Except String (Bool × List Log) :=
  if val.isArrayObj then
    if key == "length" && desc.writable && !desc.enumerable && !desc.configurable then
      Except.ok (true, [])
    else
      Except.ok (constructorFallback val key desc, [])
  else if isFunctionClass val.cls then
    if key == "length" then
      Except.ok
        (!desc.writable && !desc.enumerable && desc.configurable && val.hasDefaultLength,
         if desc.value.isNone then [(val.vid, lengthAccessorMsg)] else [])
    else if key == "name" then
      match desc.value with
      | some dv =>
        if !realm.compatJSC && (dv.cls == ValueClass.abstractC || nameMismatch val dv) then
          Except.ok (false, [])
        else
          Except.ok (true, [])
      | none => Except.ok (true, [])
    else if key == "arguments" || key == "caller" then
      if val.cls != ObjClass.sourceFuncObj then
        Except.error sourceFunctionInvariantMsg
      else if !val.strict && desc.writable && !desc.enumerable && desc.configurable
          && isUndefinedInstance desc.value
          && val.functionKind == "normal" then
        Except.ok (true, [])
      else
        Except.ok (constructorFallback val key desc, [])
    else if key == "prototype" then
      if !desc.configurable && !desc.enumerable && desc.writable
          && (match desc.value with
              | some dv => isObjClass dv.cls && dv.origCtorVid == some val.vid
              | none => false) then
        Except.ok (true, [])
      else
        Except.ok (constructorFallback val key desc, [])
    else
      Except.ok (constructorFallback val key desc, [])
  else if val.kind == "RegExp" then
    if key == "lastIndex" && desc.writable && !desc.enumerable && !desc.configurable then
      Except.ok
        ((match desc.value with
          | some v => v.cls == ValueClass.numberC && v.prim == JSPrim.num 0
          | none => false), [])
    else
      Except.ok (constructorFallback val key desc, [])
  else
    Except.ok (constructorFallback val key desc, [])

/-- The loop body of _getIgnoredProperties over the own bindings: a binding
whose descriptor is absent (deleted) is skipped; otherwise the key is added
to the set when the per-property decision says so.  Log calls of the
per-property decisions are concatenated in iteration order. -/
def getIgnoredPropertiesAux (realm : Realm) (val : ObjectValue) :
    List (String × Option Descriptor) → Except String (List String × List Log)
  | [] => Except.ok ([], [])
  | (key, binding) :: rest =>
    match binding with
    | none => getIgnoredPropertiesAux realm val rest
    | some desc =>
      match canIgnorePropertyRaw realm val key desc with
      | Except.error e => Except.error e
      | Except.ok (b, logs) =>
        match getIgnoredPropertiesAux realm val rest with
        | Except.error e => Except.error e
        | Except.ok (s, logs2) =>
          Except.ok ((if b then key :: s else s), logs ++ logs2)

/-- The full omissible set computation _getIgnoredProperties(val). -/
def getIgnoredProperties (realm : Realm) (val : ObjectValue) :
    Except String (List String × List Log) :=
  getIgnoredPropertiesAux realm val val.properties

/-- The inspector instance: the realm and the private memoization table
from object identity to the computed set of ignorable property names. -/
structure Inspector where
  realm : Realm
  ignoredProperties : List (Nat × List String)
  deriving DecidableEq

/-- this.ignoredProperties.get(val): lookup of the memoized set by identity. -/
def lookupCache (cache : List (Nat × List String)) (vid : Nat) : Option (List String) :=
  match cache.find? (fun e => e.1 == vid) with
  | none => none
  | some e => some e.2

/-- canIgnoreProperty(val, key): answer from the cache when present,
otherwise compute the full set, store it, and answer from it.  The result
carries the verdict, the updated inspector, and the emitted log calls. -/
def canIgnoreProperty (insp : Inspector) (val : ObjectValue) (key : String) :
    Except String (Bool × Inspector × List Log) :=
  match lookupCache insp.ignoredProperties val.vid with
  | some s => Except.ok (s.contains key, insp, [])
  | none =>
    match getIgnoredProperties insp.realm val with
    | Except.error e => Except.error e
    | Except.ok (s, logs) =>
      Except.ok (s.contains key,
        { realm := insp.realm, ignoredProperties := (val.vid, s) :: insp.ignoredProperties },
        logs)

/-- The scanning loop of isDefaultPrototype over the own binding names:
a name equal to constructor whose getPropertyValue is identical to
originalConstructor records success and scanning continues; any other name
returns false at once. -/
def defaultProtoScan (p : ObjectValue) : List String → Bool → Bool
  | [], found => found
  | name :: rest, _found =>
    if name == "constructor" && jsEqOpt (getPropertyValue p name) p.originalConstructor then
      defaultProtoScan p rest true
    else
      false

/-- isDefaultPrototype(prototype): false when there are symbol-keyed
bindings, the prototype link is not the ObjectPrototype intrinsic, or the
object is not extensible; otherwise the scan over all own binding names. -/
def isDefaultPrototype (realm : Realm) (p : ObjectValue) : Bool :=
  if p.symbolsSize != 0 || p.protoVid != realm.objectPrototypeVid || !p.extensible then
    false
  else
    defaultProtoScan p (p.properties.map Prod.fst) false

/-- The qualifying condition of the default-prototype claim taken at its
words: besides the symbol, prototype-link and extensibility conditions, the
own enumerable property set (own bindings whose descriptor is present and
has the enumerable flag set) consists of exactly one property, named
constructor, whose value is identical to the originalConstructor of the
object.  This definition follows the claim text, to be compared against the
source function isDefaultPrototype. -/
def defaultPrototypeClaimCond (realm : Realm) (p : ObjectValue) : Bool :=
  p.symbolsSize == 0 && p.protoVid == realm.objectPrototypeVid && p.extensible &&
  (match p.properties.filterMap (fun e =>
      match e.2 with
      | some d => if d.enumerable then some (e.1, d) else none
      | none => none) with
   | [(name, d)] => name == "constructor" && jsEqOpt d.value p.originalConstructor
   | _ => false)

/-! Concrete sample data used by the closed instances below. -/

def realmA : Realm := { objectPrototypeVid := 0, compatJSC := false }

def ctorV : Value :=
  { vid := 5, cls := ValueClass.functionC, intrinsic := false, hasIdentifier := false,
    prim := JSPrim.undef, origCtorVid := none }

/-- The canonical auto-generated constructor descriptor: writable, not
enumerable, configurable, value identical to the owner function. -/
def descCtorGood : Descriptor :=
  { value := some ctorV, writable := true, enumerable := false, configurable := true }

/-- A canonical default prototype object: sole own binding is the
constructor property with the canonical descriptor. -/
def protoGood : ObjectValue :=
  { vid := 1, cls := ObjClass.plainObj, isArrayObj := false,
    properties := [("constructor", some descCtorGood)],
    symbolsSize := 0, protoVid := 0, extensible := true,
    originalConstructor := some ctorV, kind := "Object", hasDefaultLength := false,
    originalName := none, strict := false, functionKind := "" }

/-- protoGood with one extra own binding whose descriptor is absent
(a deleted property named extra). -/
def protoWithDeleted : ObjectValue :=
  { protoGood with
    vid := 2
    properties := [("constructor", some descCtorGood), ("extra", none)] }

/-- protoWithDeleted with the deleted binding removed and nothing else
changed. -/
def protoClean : ObjectValue :=
  { protoWithDeleted with properties := [("constructor", some descCtorGood)] }

/-- An object whose only own binding is a deleted constructor property and
whose originalConstructor is absent. -/
def protoDeletedCtor : ObjectValue :=
  { protoGood with
    vid := 3
    properties := [("constructor", none)]
    originalConstructor := none }

def undefValue : Value :=
  { vid := 11, cls := ValueClass.undefinedC, intrinsic := true, hasIdentifier := false,
    prim := JSPrim.undef, origCtorVid := none }

/-- The canonical poison-pill descriptor of caller and arguments: writable,
not enumerable, configurable, value an UndefinedValue instance. -/
def poisonDesc : Descriptor :=
  { value := some undefValue, writable := true, enumerable := false, configurable := true }

/-- A strict source function of kind normal. -/
def strictFn : ObjectValue :=
  { vid := 7, cls := ObjClass.sourceFuncObj, isArrayObj := false, properties := [],
    symbolsSize := 0, protoVid := 9, extensible := true, originalConstructor := none,
    kind := "Object", hasDefaultLength := true, originalName := some "f",
    strict := true, functionKind := "normal" }

/-- A non-strict source function of kind normal. -/
def normalFn : ObjectValue :=
  { strictFn with vid := 8, strict := false }

def strBarV : Value :=
  { vid := 12, cls := ValueClass.stringC, intrinsic := false, hasIdentifier := false,
    prim := JSPrim.str "bar", origCtorVid := none }

def strFooV : Value :=
  { vid := 13, cls := ValueClass.stringC, intrinsic := false, hasIdentifier := false,
    prim := JSPrim.str "foo", origCtorVid := none }

/-- A function whose recorded original name is foo. -/
def namedFn : ObjectValue :=
  { strictFn with vid := 14, cls := ObjClass.funcObj, originalName := some "foo" }

def descNameBar : Descriptor :=
  { value := some strBarV, writable := false, enumerable := false, configurable := true }

def descNameFoo : Descriptor :=
  { value := some strFooV, writable := false, enumerable := false, configurable := true }

/-- An accessor descriptor: the value slot is absent. -/
def descAccessor : Descriptor :=
  { value := none, writable := false, enumerable := false, configurable := true }

/-- A plain object whose property named p is an accessor property. -/
def accObj : ObjectValue :=
  { protoGood with
    vid := 15
    properties := [("p", some descAccessor)]
    originalConstructor := none }

/-- An abstract value that is intrinsic and carries an identifier. -/
def abstractIntr : Value :=
  { vid := 20, cls := ValueClass.abstractC, intrinsic := true, hasIdentifier := true,
    prim := JSPrim.undef, origCtorVid := none }

deriving instance DecidableEq for Except

def insp0 : Inspector := { realm := realmA, ignoredProperties := [] }

def insp1 : Inspector := { realm := realmA, ignoredProperties := [(1, ["constructor"])] }

/-- The retention condition of the name rule phrased from the claim text:
the descriptor holds an explicit value, the runtime is not in the
legacy-engine compatibility mode, and either that value is an abstract
value or the function has a recorded original name different from the
literal value of the descriptor. -/
def nameRetainCond (realm : Realm) (val : ObjectValue) (desc : Descriptor) : Prop :=
  ∃ dv, desc.value = some dv ∧ realm.compatJSC = false ∧
    (dv.cls = ValueClass.abstractC ∨
     ∃ s, val.originalName = some s ∧ s ≠ "" ∧ dv.prim ≠ JSPrim.str s)

/-- Claim C4: isLeaf applies its rules in priority order: a symbol value is
never a leaf; otherwise an abstract value carrying a stable identifier is a
leaf even when it is also intrinsic; otherwise any intrinsic value is not a
leaf; otherwise leafness holds exactly when the class of the value is
primitive. -/
theorem c4_isLeaf_rule_order (v : Value) :
    (v.cls = ValueClass.symbolC → isLeaf v = false) ∧
    (v.cls = ValueClass.abstractC → v.hasIdentifier = true → isLeaf v = true) ∧
    (v.cls ≠ ValueClass.symbolC → ¬(v.cls = ValueClass.abstractC ∧ v.hasIdentifier = true) →
      v.intrinsic = true → isLeaf v = false) ∧
    (v.cls ≠ ValueClass.symbolC → ¬(v.cls = ValueClass.abstractC ∧ v.hasIdentifier = true) →
      v.intrinsic = false → isLeaf v = isPrimitiveClass v.cls) := by
  refine ⟨fun h => ?_, fun h1 h2 => ?_, fun h1 h2 h3 => ?_, fun h1 h2 h3 => ?_⟩
  · simp [isLeaf, h]
  · simp [isLeaf, h1, h2]
  · rcases Decidable.em (v.cls = ValueClass.abstractC) with hc | hc
    · have hid : v.hasIdentifier = false := by
        cases hI : v.hasIdentifier
        · rfl
        · exact absurd ⟨hc, hI⟩ h2
      simp [isLeaf, h1, hc, hid, h3]
    · simp [isLeaf, h1, hc, h3]
  · rcases Decidable.em (v.cls = ValueClass.abstractC) with hc | hc
    · have hid : v.hasIdentifier = false := by
        cases hI : v.hasIdentifier
        · rfl
        · exact absurd ⟨hc, hI⟩ h2
      simp [isLeaf, h1, hc, hid, h3]
    · simp [isLeaf, h1, hc, h3]

/-- Witness for C4 at a concrete input: an abstract value that is both
intrinsic and carries an identifier is classified as a leaf. -/
theorem c4_isLeaf_rule_order_witness : isLeaf abstractIntr = true :=
  (c4_isLeaf_rule_order abstractIntr).2.1 rfl rfl

/-- Claim C9: getPropertyValue returns exactly the content of the value
slot of the descriptor, and it reports absent when the binding is missing,
when the descriptor is absent, and also when binding and descriptor are
present but the descriptor has no value slot, so an accessor property is
indistinguishable from a nonexistent one. -/
theorem c9_getPropertyValue_value_slot (val : ObjectValue) (name : String) :
    (∀ d, lookupBinding val name = some (some d) → getPropertyValue val name = d.value) ∧
    (getPropertyValue val name = none ↔
      (lookupBinding val name = none ∨ lookupBinding val name = some none ∨
       ∃ d, lookupBinding val name = some (some d) ∧ d.value = none)) := by
  constructor
  · intro d hd
    simp [getPropertyValue, hd]
  · cases h : lookupBinding val name with
    | none => simp [getPropertyValue, h]
    | some b =>
      cases b with
      | none => simp [getPropertyValue, h]
      | some d => simp [getPropertyValue, h]

/-- Witness for C9 at a concrete input: a present accessor property reads
as absent. -/
theorem c9_getPropertyValue_value_slot_witness : getPropertyValue accObj "p" = none :=
  (c9_getPropertyValue_value_slot accObj "p").2.mpr
    (Or.inr (Or.inr ⟨descAccessor, by decide, rfl⟩))

/-- Claim C10: an object with no symbol-keyed properties, prototype link
equal to the base object prototype intrinsic, extensible, with no recorded
originalConstructor, whose only own binding is named constructor with its
descriptor absent or its value slot absent, is judged a default prototype,
because the absent property value compares equal to the absent
originalConstructor. -/
theorem c10_isDefaultPrototype_absent_matches (realm : Realm) (p : ObjectValue)
    (b : Option Descriptor)
    (h1 : p.symbolsSize = 0) (h2 : p.protoVid = realm.objectPrototypeVid)
    (h3 : p.extensible = true) (h4 : p.originalConstructor = none)
    (h5 : p.properties = [("constructor", b)])
    (h6 : b = none ∨ ∃ d, b = some d ∧ d.value = none) :
    isDefaultPrototype realm p = true := by
  have hgp : getPropertyValue p "constructor" = none := by
    rcases h6 with hb | ⟨d, hb, hd⟩
    · simp [getPropertyValue, lookupBinding, h5, hb, List.find?]
    · simp [getPropertyValue, lookupBinding, h5, hb, hd, List.find?]
  unfold isDefaultPrototype
  rw [if_neg]
  · simp [h5, defaultProtoScan, hgp, h4, jsEqOpt]
  · simp [h1, h2, h3]

/-- Witness for C10 at a concrete input: the object whose sole binding is a
deleted constructor property and whose originalConstructor is absent. -/
theorem c10_isDefaultPrototype_absent_matches_witness :
    isDefaultPrototype realmA protoDeletedCtor = true :=
  c10_isDefaultPrototype_absent_matches realmA protoDeletedCtor none
    (by decide) (by decide) (by decide) (by decide) (by decide) (Or.inl rfl)

/-- Claim C6: for a function value queried for the length key the decision
never throws; when the value slot of the descriptor is absent a single
non-fatal error is reported to the diagnostics sink; in all cases the
verdict is exactly the shape check: omissible iff the descriptor is
non-writable, non-enumerable, configurable, and the recorded parameter
count of the function matches its default length. -/
theorem c6_function_length_rule (realm : Realm) (val : ObjectValue) (desc : Descriptor)
    (hfun : isFunctionClass val.cls = true) (harr : val.isArrayObj = false) :
    canIgnorePropertyRaw realm val "length" desc =
      Except.ok
        (!desc.writable && !desc.enumerable && desc.configurable && val.hasDefaultLength,
         if desc.value.isNone then [(val.vid, lengthAccessorMsg)] else []) := by
  simp [canIgnorePropertyRaw, harr, hfun]

/-- Witness for C6 at a concrete input: an accessor length descriptor on a
function with default length produces one log call, and the verdict is
still governed by the shape check. -/
theorem c6_function_length_rule_witness :
    canIgnorePropertyRaw realmA normalFn "length" descAccessor =
      Except.ok (true, [(8, lengthAccessorMsg)]) := by
  have h := c6_function_length_rule realmA normalFn descAccessor (by decide) (by decide)
  simpa [normalFn, strictFn, descAccessor] using h

/-- Claim C5: for a function value queried for the name key, the property
is not omissible exactly under the retention condition, and omissible in
all other cases; the decision emits no diagnostics and never throws. -/
theorem c5_function_name_rule (realm : Realm) (val : ObjectValue) (desc : Descriptor)
    (hfun : isFunctionClass val.cls = true) (harr : val.isArrayObj = false) :
    (nameRetainCond realm val desc →
      canIgnorePropertyRaw realm val "name" desc = Except.ok (false, [])) ∧
    (¬ nameRetainCond realm val desc →
      canIgnorePropertyRaw realm val "name" desc = Except.ok (true, [])) := by
  cases hdv : desc.value with
  | none =>
    constructor
    · rintro ⟨dv, hdv2, -⟩
      rw [hdv] at hdv2
      cases hdv2
    · intro _h
      simp [canIgnorePropertyRaw, harr, hfun, hdv]
  | some dv =>
    constructor
    · rintro ⟨dv2, hdv2, hcompat, hrest⟩
      rw [hdv] at hdv2
      have hdd : dv = dv2 := Option.some.inj hdv2
      rw [← hdd] at hrest
      have hcond : (!realm.compatJSC
          && (dv.cls == ValueClass.abstractC || nameMismatch val dv)) = true := by
        rcases hrest with habs | ⟨s, hs, hne, hprim⟩
        · simp [hcompat, habs]
        · simp [hcompat, nameMismatch, hs, hne, hprim]
      simp [canIgnorePropertyRaw, harr, hfun, hdv, hcond]
    · intro hc
      cases hb : (!realm.compatJSC
          && (dv.cls == ValueClass.abstractC || nameMismatch val dv)) with
      | false => simp [canIgnorePropertyRaw, harr, hfun, hdv, hb]
      | true =>
        exfalso
        apply hc
        rcases Bool.and_eq_true_iff.mp hb with ⟨h1, h2⟩
        have hcompat : realm.compatJSC = false := by
          cases h : realm.compatJSC
          · rfl
          · rw [h] at h1; cases h1
        rcases Bool.or_eq_true_iff.mp h2 with habs | hmm
        · exact ⟨dv, hdv, hcompat, Or.inl (by simpa using habs)⟩
        · refine ⟨dv, hdv, hcompat, Or.inr ?_⟩
          unfold nameMismatch at hmm
          cases hon : val.originalName with
          | none => rw [hon] at hmm; cases hmm
          | some s =>
            rw [hon] at hmm
            rcases Bool.and_eq_true_iff.mp hmm with ⟨hne, hprim⟩
            exact ⟨s, rfl, by simpa using hne, by simpa using hprim⟩

/-- Witness for C5 at a concrete input: a function with recorded original
name foo and a name descriptor holding the literal bar, outside the
compatibility mode, is not omissible. -/
theorem c5_function_name_rule_witness :
    canIgnorePropertyRaw realmA namedFn "name" descNameBar = Except.ok (false, []) :=
  (c5_function_name_rule realmA namedFn descNameBar (by decide) (by decide)).1
    ⟨strBarV, by decide, by decide, Or.inr ⟨"foo", by decide, by decide, by decide⟩⟩

/-- Claim C2: for a function value queried for the arguments or caller key,
a function that is not of the expected concrete subtype trips the internal
consistency check; a strict-mode source function, or one whose kind is not
normal, is never judged omissible; for a non-strict source function of
kind normal, the property is omissible exactly when the descriptor is
writable, not enumerable, configurable, and its value is the Undefined
value. -/
theorem c2_arguments_caller_rule (realm : Realm) (val : ObjectValue) (key : String)
    (desc : Descriptor)
    (hfun : isFunctionClass val.cls = true) (harr : val.isArrayObj = false)
    (hkey : key = "arguments" ∨ key = "caller") :
    (val.cls ≠ ObjClass.sourceFuncObj →
      canIgnorePropertyRaw realm val key desc = Except.error sourceFunctionInvariantMsg) ∧
    (val.cls = ObjClass.sourceFuncObj → (val.strict = true ∨ val.functionKind ≠ "normal") →
      canIgnorePropertyRaw realm val key desc = Except.ok (false, [])) ∧
    (val.cls = ObjClass.sourceFuncObj → val.strict = false → val.functionKind = "normal" →
      canIgnorePropertyRaw realm val key desc =
        Except.ok (desc.writable && !desc.enumerable && desc.configurable
          && isUndefinedInstance desc.value, [])) := by
  have hconstr : constructorFallback val key desc = false := by
    rcases hkey with rfl | rfl <;> simp [constructorFallback]
  refine ⟨fun hns => ?_, fun hcls hnq => ?_, fun hcls hstrict hkind => ?_⟩
  · rcases hkey with rfl | rfl <;> simp [canIgnorePropertyRaw, harr, hfun, hns]
  · rcases hnq with hstrict | hkind
    · rcases hkey with rfl | rfl <;>
        simp [canIgnorePropertyRaw, harr, hfun, hcls, hstrict, hconstr]
    · have hkindb : (val.functionKind == "normal") = false := by
        simpa using hkind
      rcases hkey with rfl | rfl <;>
        simp [canIgnorePropertyRaw, harr, hfun, hcls, hkindb, hconstr]
  · cases hb : (desc.writable && !desc.enumerable && desc.configurable
        && isUndefinedInstance desc.value) with
    | false =>
      have : (!val.strict && desc.writable && !desc.enumerable && desc.configurable
          && isUndefinedInstance desc.value && (val.functionKind == "normal")) = false := by
        rw [hstrict]
        cases hw : desc.writable <;> cases he : desc.enumerable <;>
          cases hcf : desc.configurable <;> cases hu : isUndefinedInstance desc.value <;>
          simp_all
      rcases hkey with rfl | rfl <;>
        simp [canIgnorePropertyRaw, harr, hfun, isFunctionClass, hcls, hconstr, this]
    | true =>
      have : (!val.strict && desc.writable && !desc.enumerable && desc.configurable
          && isUndefinedInstance desc.value && (val.functionKind == "normal")) = true := by
        rw [hstrict, hkind]
        cases hw : desc.writable <;> cases he : desc.enumerable <;>
          cases hcf : desc.configurable <;> cases hu : isUndefinedInstance desc.value <;>
          simp_all
      rcases hkey with rfl | rfl <;>
        simp [canIgnorePropertyRaw, harr, hfun, isFunctionClass, hcls, this]

/-- Witness for C2 at a concrete input: a strict source function with the
canonical poison-pill descriptor on arguments is not omissible. -/
theorem c2_arguments_caller_rule_witness :
    canIgnorePropertyRaw realmA strictFn "arguments" poisonDesc = Except.ok (false, []) :=
  (c2_arguments_caller_rule realmA strictFn "arguments" poisonDesc
    (by decide) (by decide) (Or.inl rfl)).2.1 rfl (Or.inl rfl)

/-- After a successful query the cache of the updated inspector holds a set
for the queried object, and the answer is membership in that set. -/
theorem canIgnoreProperty_cached (insp : Inspector) (val : ObjectValue) (key : String)
    (b : Bool) (insp2 : Inspector) (logs : List Log)
    (h : canIgnoreProperty insp val key = Except.ok (b, insp2, logs)) :
    ∃ s, lookupCache insp2.ignoredProperties val.vid = some s ∧ b = s.contains key := by
  unfold canIgnoreProperty at h
  cases hc : lookupCache insp.ignoredProperties val.vid with
  | some s =>
    rw [hc] at h
    simp only [Except.ok.injEq, Prod.mk.injEq] at h
    obtain ⟨hb, hi, -⟩ := h
    rw [← hi]
    exact ⟨s, hc, hb.symm⟩
  | none =>
    rw [hc] at h
    cases hg : getIgnoredProperties insp.realm val with
    | error e => rw [hg] at h; cases h
    | ok p =>
      obtain ⟨s, logs2⟩ := p
      rw [hg] at h
      simp only [Except.ok.injEq, Prod.mk.injEq] at h
      obtain ⟨hb, hi, -⟩ := h
      rw [← hi]
      refine ⟨s, ?_, hb.symm⟩
      simp [lookupCache, List.find?]

/-- Claim C7: repeated calls of canIgnoreProperty with the same object and
key return the same result as the first call, and any further query for
that object answers from the cache: it leaves the inspector unchanged and
performs no further full-set computation (observably, it emits no log
calls). -/
theorem c7_canIgnoreProperty_memoized (insp : Inspector) (val : ObjectValue) (key : String)
    (b : Bool) (insp2 : Inspector) (logs : List Log)
    (h : canIgnoreProperty insp val key = Except.ok (b, insp2, logs)) :
    canIgnoreProperty insp2 val key = Except.ok (b, insp2, []) ∧
    ∀ k : String, ∃ b2, canIgnoreProperty insp2 val k = Except.ok (b2, insp2, []) := by
  obtain ⟨s, hs, hb⟩ := canIgnoreProperty_cached insp val key b insp2 logs h
  constructor
  · unfold canIgnoreProperty
    rw [hs, hb]
  · intro k
    refine ⟨s.contains k, ?_⟩
    unfold canIgnoreProperty
    rw [hs]

/-- Witness for C7 at a concrete input: a second query for the constructor
property of the canonical prototype object answers from the cache. -/
theorem c7_canIgnoreProperty_memoized_witness :
    canIgnoreProperty insp1 protoGood "constructor" = Except.ok (true, insp1, []) :=
  (c7_canIgnoreProperty_memoized insp0 protoGood "constructor" true insp1 []
    (by decide)).1

/-- Claim C8: a call of canIgnoreProperty leaves the realm untouched, never
removes or replaces an entry of the memoization table, and grows it by at
most one entry, for an object that had none; the query operations of the
inspector are functions of the heap snapshot and cache alone, so the heap
itself is left unchanged. -/
theorem c8_cache_only_grows (insp : Inspector) (val : ObjectValue) (key : String)
    (b : Bool) (insp2 : Inspector) (logs : List Log)
    (h : canIgnoreProperty insp val key = Except.ok (b, insp2, logs)) :
    insp2.realm = insp.realm ∧
    (∀ vid s, lookupCache insp.ignoredProperties vid = some s →
      lookupCache insp2.ignoredProperties vid = some s) ∧
    (insp2.ignoredProperties = insp.ignoredProperties ∨
      ∃ s, insp2.ignoredProperties = (val.vid, s) :: insp.ignoredProperties ∧
        lookupCache insp.ignoredProperties val.vid = none) := by
  unfold canIgnoreProperty at h
  cases hc : lookupCache insp.ignoredProperties val.vid with
  | some s =>
    rw [hc] at h
    simp only [Except.ok.injEq, Prod.mk.injEq] at h
    obtain ⟨-, hi, -⟩ := h
    rw [← hi]
    exact ⟨rfl, fun vid s2 hs2 => hs2, Or.inl rfl⟩
  | none =>
    rw [hc] at h
    cases hg : getIgnoredProperties insp.realm val with
    | error e => rw [hg] at h; cases h
    | ok p =>
      obtain ⟨s, logs2⟩ := p
      rw [hg] at h
      simp only [Except.ok.injEq, Prod.mk.injEq] at h
      obtain ⟨-, hi, -⟩ := h
      rw [← hi]
      refine ⟨rfl, ?_, Or.inr ⟨s, rfl, rfl⟩⟩
      intro vid s2 hs2
      have hne : (val.vid == vid) = false := by
        cases hv : val.vid == vid
        · rfl
        · exfalso
          have : val.vid = vid := by simpa using hv
          rw [this] at hc
          rw [hc] at hs2
          cases hs2
      simp [lookupCache, List.find?, hne]
      simpa [lookupCache] using hs2

/-- Witness for C8 at a concrete input: the first query for the canonical
prototype object keeps the realm and extends the cache by one entry. -/
theorem c8_cache_only_grows_witness : insp1.realm = insp0.realm :=
  (c8_cache_only_grows insp0 protoGood "constructor" true insp1 [] (by decide)).1

/-- The scanning loop returns true exactly when every scanned name is the
constructor name passing the value identity test, and the scanned list was
nonempty or the flag was already set. -/
theorem defaultProtoScan_true_iff (p : ObjectValue) (names : List String) (found : Bool) :
    defaultProtoScan p names found = true ↔
      ((names = [] → found = true) ∧ ∀ n ∈ names,
        n = "constructor" ∧ jsEqOpt (getPropertyValue p n) p.originalConstructor = true) := by
  induction names generalizing found with
  | nil => simp [defaultProtoScan]
  | cons n rest ih =>
    rw [defaultProtoScan]
    by_cases hn : (n == "constructor"
        && jsEqOpt (getPropertyValue p n) p.originalConstructor) = true
    · rw [if_pos hn]
      rw [ih]
      rcases Bool.and_eq_true_iff.mp hn with ⟨hn1, hn2⟩
      have hn1h : n = "constructor" := by simpa using hn1
      constructor
      · rintro ⟨-, hall⟩
        refine ⟨fun habs => absurd habs (by simp), ?_⟩
        intro m hm
        rcases List.mem_cons.mp hm with rfl | hm2
        · exact ⟨hn1h, hn2⟩
        · exact hall m hm2
      · rintro ⟨-, hall⟩
        exact ⟨fun _ => rfl, fun m hm => hall m (List.mem_cons_of_mem _ hm)⟩
    · rw [if_neg hn]
      constructor
      · intro habs
        cases habs
      · rintro ⟨-, hall⟩
        obtain ⟨h1, h2⟩ := hall n (List.mem_cons_self _ _)
        exact absurd (Bool.and_eq_true_iff.mpr ⟨by simp [h1], h2⟩) hn

/-- Any own binding name other than constructor forces isDefaultPrototype
to return false. -/
theorem isDefaultPrototype_false_of_other_name (realm : Realm) (p : ObjectValue)
    (k : String) (hk : k ∈ p.properties.map Prod.fst) (hkc : k ≠ "constructor") :
    isDefaultPrototype realm p = false := by
  unfold isDefaultPrototype
  split
  · rfl
  · cases hsc : defaultProtoScan p (p.properties.map Prod.fst) false
    · rfl
    · exfalso
      obtain ⟨-, hall⟩ := (defaultProtoScan_true_iff p _ false).mp hsc
      exact hkc (hall k hk).1

/-- Every name of the computed omissible set stems from a binding whose
descriptor is present. -/
theorem ignoredAux_mem (realm : Realm) (val : ObjectValue)
    (props : List (String × Option Descriptor)) (s : List String) (logs : List Log)
    (h : getIgnoredPropertiesAux realm val props = Except.ok (s, logs)) :
    ∀ k ∈ s, ∃ d, (k, some d) ∈ props := by
  induction props generalizing s logs with
  | nil =>
    rw [getIgnoredPropertiesAux] at h
    simp only [Except.ok.injEq, Prod.mk.injEq] at h
    obtain ⟨hs, -⟩ := h
    rw [← hs]
    intro k hk
    cases hk
  | cons e rest ih =>
    obtain ⟨key, binding⟩ := e
    cases binding with
    | none =>
      rw [getIgnoredPropertiesAux] at h
      intro k hk
      obtain ⟨d, hd⟩ := ih s logs h k hk
      exact ⟨d, List.mem_cons_of_mem _ hd⟩
    | some desc =>
      rw [getIgnoredPropertiesAux] at h
      cases hr : canIgnorePropertyRaw realm val key desc with
      | error err => rw [hr] at h; cases h
      | ok pr =>
        obtain ⟨bb, logs1⟩ := pr
        rw [hr] at h
        cases ha : getIgnoredPropertiesAux realm val rest with
        | error err => rw [ha] at h; cases h
        | ok q =>
          obtain ⟨s2, logs2⟩ := q
          rw [ha] at h
          simp only [Except.ok.injEq, Prod.mk.injEq] at h
          obtain ⟨hs, -⟩ := h
          intro k hk
          rw [← hs] at hk
          cases bb with
          | true =>
            rcases List.mem_cons.mp (by simpa using hk) with rfl | hk2
            · exact ⟨desc, List.mem_cons_self _ _⟩
            · obtain ⟨d, hd⟩ := ih s2 logs2 ha k hk2
              exact ⟨d, List.mem_cons_of_mem _ hd⟩
          | false =>
            obtain ⟨d, hd⟩ := ih s2 logs2 ha k (by simpa using hk)
            exact ⟨d, List.mem_cons_of_mem _ hd⟩

/-- With unique binding names, one name holds at most one binding. -/
theorem nodup_binding_unique (props : List (String × Option Descriptor))
    (hnd : (props.map Prod.fst).Nodup) (k : String) (b1 b2 : Option Descriptor)
    (h1 : (k, b1) ∈ props) (h2 : (k, b2) ∈ props) : b1 = b2 := by
  induction props with
  | nil => cases h1
  | cons e rest ih =>
    rw [List.map_cons, List.nodup_cons] at hnd
    rcases List.mem_cons.mp h1 with h1e | h1r
    · rcases List.mem_cons.mp h2 with h2e | h2r
      · exact congrArg Prod.snd (h1e.trans h2e.symm)
      · exfalso
        apply hnd.1
        have hk1 : e.1 = k := by rw [← h1e]
        rw [hk1]
        exact List.mem_map_of_mem Prod.fst h2r
    · rcases List.mem_cons.mp h2 with h2e | h2r
      · exfalso
        apply hnd.1
        have hk2 : e.1 = k := by rw [← h2e]
        rw [hk2]
        exact List.mem_map_of_mem Prod.fst h1r
      · exact ih hnd.2 h1r h2r

/-- Counterexample to claim C1 as stated: the canonical prototype object
whose constructor property is not enumerable (the standard auto-generated
shape) makes isDefaultPrototype return true while the qualifying condition
of the claim, whose property set is the own enumerable property set, does
not hold, so the stated equivalence fails at this input. -/
theorem c1_counterexample :
    ¬ (isDefaultPrototype realmA protoGood = true ↔
       defaultPrototypeClaimCond realmA protoGood = true) := by decide

/-- Claim C1 as amended: isDefaultPrototype returns true iff the object has
no symbol-keyed own properties, its prototype link is exactly the base
object prototype intrinsic of the realm, it is extensible, and its own
property bindings, taken over all bindings regardless of the enumerable
flag and including deleted ones, consist of exactly one binding, named
constructor, whose value as read by getPropertyValue equals the
originalConstructor of the object; in particular any other binding name
forces false, and an object with no constructor binding yields false. -/
theorem c1_default_prototype_characterization (realm : Realm) (p : ObjectValue)
    (hnd : (p.properties.map Prod.fst).Nodup) :
    isDefaultPrototype realm p = true ↔
      (p.symbolsSize = 0 ∧ p.protoVid = realm.objectPrototypeVid ∧ p.extensible = true ∧
       ∃ b, p.properties = [("constructor", b)] ∧
         jsEqOpt (getPropertyValue p "constructor") p.originalConstructor = true) := by
  unfold isDefaultPrototype
  by_cases hpre : (p.symbolsSize != 0 || p.protoVid != realm.objectPrototypeVid
      || !p.extensible) = true
  · rw [if_pos hpre]
    constructor
    · intro habs
      exact Bool.noConfusion habs
    · rintro ⟨h1, h2, h3, -⟩
      exfalso
      simp [h1, h2, h3] at hpre
  · rw [if_neg hpre]
    have hpre2 : (p.symbolsSize = 0 ∧ p.protoVid = realm.objectPrototypeVid)
        ∧ p.extensible = true := by
      simpa [not_or] using hpre
    rw [defaultProtoScan_true_iff]
    constructor
    · rintro ⟨hne, hall⟩
      refine ⟨hpre2.1.1, hpre2.1.2, hpre2.2, ?_⟩
      cases hp : p.properties with
      | nil => exact Bool.noConfusion (hne (by simp [hp]))
      | cons e rest =>
        have he1 : e.1 = "constructor" := (hall e.1 (by simp [hp])).1
        cases hp2 : rest with
        | nil =>
          obtain ⟨k, bnd⟩ := e
          have hk : k = "constructor" := he1
          subst hk
          refine ⟨bnd, rfl, ?_⟩
          have h4 := (hall "constructor" (by simp [hp])).2
          exact h4
        | cons e2 rest2 =>
          exfalso
          have he2 : e2.1 = "constructor" := (hall e2.1 (by simp [hp, hp2])).1
          rw [hp, hp2, List.map_cons, List.map_cons, List.nodup_cons] at hnd
          apply hnd.1
          rw [he1, ← he2]
          exact List.mem_cons_self _ _
    · rintro ⟨h1, h2, h3, b, hb, hjs⟩
      constructor
      · intro habs
        rw [hb] at habs
        simp at habs
      · intro n hn
        rw [hb] at hn
        simp only [List.map_cons, List.map_nil, List.mem_singleton] at hn
        subst hn
        exact ⟨rfl, hjs⟩

/-- Witness for the amended claim C1 at a concrete input: the canonical
prototype object qualifies. -/
theorem c1_default_prototype_characterization_witness :
    isDefaultPrototype realmA protoGood = true :=
  (c1_default_prototype_characterization realmA protoGood (by decide)).mpr
    ⟨rfl, rfl, rfl, some descCtorGood, rfl, by decide⟩

/-- Counterexample to claim C3 as stated: adding one deleted binding named
extra to the canonical prototype object flips the verdict of
isDefaultPrototype from true to false, so a deleted non-constructor binding
does affect the verdict. -/
theorem c3_counterexample :
    isDefaultPrototype realmA protoWithDeleted = false ∧
    isDefaultPrototype realmA protoClean = true ∧
    protoClean = { protoWithDeleted with properties := [("constructor", some descCtorGood)] } :=
  ⟨by decide, by decide, rfl⟩

/-- Claim C3 as amended: a property whose binding exists but whose
descriptor is absent is never in the computed omissible set, so
canIgnoreProperty answers false for it on a first query for the object;
isDefaultPrototype however iterates all own binding names, deleted ones
included, so a deleted binding named anything other than constructor forces
its verdict to false. -/
theorem c3_deleted_property_handling (insp : Inspector) (val : ObjectValue) (key : String)
    (hnd : (val.properties.map Prod.fst).Nodup)
    (hdel : (key, (none : Option Descriptor)) ∈ val.properties) :
    (∀ b insp2 logs, canIgnoreProperty insp val key = Except.ok (b, insp2, logs) →
      lookupCache insp.ignoredProperties val.vid = none → b = false) ∧
    (key ≠ "constructor" → isDefaultPrototype insp.realm val = false) := by
  constructor
  · intro b insp2 logs h hfresh
    unfold canIgnoreProperty at h
    rw [hfresh] at h
    cases hg : getIgnoredProperties insp.realm val with
    | error e => rw [hg] at h; cases h
    | ok p =>
      obtain ⟨s, logs2⟩ := p
      rw [hg] at h
      simp only [Except.ok.injEq, Prod.mk.injEq] at h
      obtain ⟨hb, -⟩ := h
      rw [← hb]
      cases hcb : s.contains key with
      | false => rfl
      | true =>
        exfalso
        have hmem : key ∈ s := List.elem_iff.mp hcb
        unfold getIgnoredProperties at hg
        obtain ⟨d, hd⟩ := ignoredAux_mem insp.realm val val.properties s logs2 hg key hmem
        exact Option.noConfusion (nodup_binding_unique val.properties hnd key (some d) none hd hdel)
  · intro hkc
    exact isDefaultPrototype_false_of_other_name insp.realm val key
      (List.mem_map_of_mem Prod.fst hdel) hkc

/-- Witness for the amended claim C3 at a concrete input: the deleted
binding named extra forces the verdict of isDefaultPrototype to false. -/
theorem c3_deleted_property_handling_witness :
    isDefaultPrototype realmA protoWithDeleted = false :=
  (c3_deleted_property_handling insp0 protoWithDeleted "extra"
    (by decide) (by decide)).2 (by decide)

end ResidualHeap
